import Mathlib

/-!
Shallow embedding of `llm/download.py` (nai-llm): a script that resolves a
model name to a HuggingFace repository, optionally downloads the files,
reconciles the local file listing against the remote one, and packages the
result into a `.mar` archive via an external generator.

Pure helpers (`filter_files_by_extension`, `compare_lists`,
`get_ignore_pattern_list`) are translated directly.  Stateful code is
embedded in a small state-plus-error monad `M` over an explicit filesystem
model `FsState`; external collaborators (HuggingFace client, mar generator)
are oracles supplied by an `Env` record.  Remote calls and filesystem
mutations are recorded as `Event`s so that ordering claims can be stated.
-/

/-! ## String helpers -/

/-- Character constant for the path separator. -/
def slashChar : Char := '/'

/-- Character constant for newline (used by the regex end-anchor model). -/
def newlineChar : Char := '\n'

/-- Python `str.startswith`: `a` is a literal starting segment of `b`. -/
def strStarts (a b : String) : Bool := b.data.take a.data.length == a.data

/-- Python `os.path.join` for the absolute-path arguments this script uses. -/
def pathJoin (a b : String) : String := a ++ "/" ++ b

/-! ## Regex model for `filter_files_by_extension`

`download.py` builds the pattern `'|'.join([re.escape(suffix) + '$' for
suffix in extensions_to_remove])` and tests filenames with `re.search`.
Because every alternative is an escaped literal followed by `$`, `re.search`
succeeds iff some alternative matches starting at some position `i` of the
string with the `$` anchor holding right after the literal.  Python's `$`
(without `re.MULTILINE`) matches at the end of the string or just before a
newline that ends the string.  The empty extension list yields the empty
pattern `''`, which `re.search` matches against every string. -/

/-- Python `$` anchor at position `j` of `f`: end of string, or position of a
newline that ends the string. -/
def reEndAnchor (f : List Char) (j : Nat) : Bool :=
  j == f.length || f.drop j == [newlineChar]

/-- The escaped literal `lit` followed by `$` matches `f` starting at `i`. -/
def reLitMatchAt (lit f : List Char) (i : Nat) : Bool :=
  (f.drop i).take lit.length == lit && reEndAnchor f (i + lit.length)

/-- `re.search` of the joined pattern built from the literals `lits`:
some alternative matches at some start position.  The empty join is the
empty pattern, which matches every string. -/
def reSearchSuffixPat (lits : List (List Char)) (f : List Char) : Bool :=
  if lits.isEmpty then true
  else (List.range (f.length + 1)).any (fun i => lits.any (fun lit => reLitMatchAt lit f i))

/-- `download.py` line 13. -/
def FILE_EXTENSIONS_TO_IGNORE : List String := [".safetensors", ".safetensors.index.json"]

/-- `download.py` lines 44-45: wildcard patterns handed to `snapshot_download`. -/
def get_ignore_pattern_list (extension_list : List String) : List String :=
  extension_list.map (fun pattern => "*" ++ pattern)

/-- `download.py` lines 48-49: `Counter(list1) == Counter(list2)`.  Two
counters are equal iff every key of either has the same count in both. -/
def compare_lists (list1 list2 : List String) : Bool :=
  (list1 ++ list2).all (fun x => list1.count x == list2.count x)

/-- `download.py` lines 52-56: keep the filenames not matched by the joined
suffix regex. -/
def filter_files_by_extension (filenames extensions_to_remove : List String) : List String :=
  filenames.filter (fun filename =>
    !(reSearchSuffixPat (extensions_to_remove.map String.data) filename.data))

/-! ## Filesystem model

The script manipulates the filesystem through `utils.system_utils` /
`utils.shell_utils` primitives whose sources are not part of this tree; they
are modelled from the spec (§1 "filesystem primitives (existence checks,
directory creation/removal, file move)").  A filesystem state is the list of
existing paths, each a file or a directory. -/

/-- Kind of a filesystem entry. -/
inductive FsNode where
  | file : FsNode
  | dir : FsNode
deriving DecidableEq, Repr

/-- A filesystem: the list of existing paths with their kinds. -/
structure FsState where
  entries : List (String × FsNode)
deriving Repr

/-- Path `p` lies strictly inside directory `root`. -/
def pathUnder (root p : String) : Bool := strStarts (root ++ "/") p

/-- `os.path.exists`. -/
def FsState.existsPath (fs : FsState) (p : String) : Bool :=
  fs.entries.any (fun e => e.1 == p)

/-- Remove a directory and everything inside it (`rm -rf`). -/
def FsState.removeTree (fs : FsState) (p : String) : FsState :=
  ⟨fs.entries.filter (fun e => !(e.1 == p || pathUnder p e.1))⟩

/-- Modelled from the spec: `check_if_folder_empty` — the directory has no
entries inside it. -/
def FsState.folderEmpty (fs : FsState) (p : String) : Bool :=
  !(fs.entries.any (fun e => pathUnder p e.1))

/-- `os.listdir`: names of the immediate children of `p`. -/
def FsState.listdir (fs : FsState) (p : String) : List String :=
  (fs.entries.filterMap (fun e =>
      if pathUnder p e.1 then some (String.mk (e.1.data.drop (p.data.length + 1))) else none)).filter
    (fun n => !(n.data.any (fun c => c == slashChar)))

/-! ## Effect monad

State (filesystem + event trace) with an abort channel for `sys.exit(1)`. -/

/-- Observable effects of one run, recorded in order. -/
inductive Event where
  | readConfig : Event
  | remoteListCommits (repo_id repo_version : String) (token : Option String) : Event
  | remoteListFiles (repo_id repo_version : String) (token : Option String) : Event
  | snapshotDownload (repo_id repo_version local_dir : String) (token : Option String)
      (ignore_patterns : List String) : Event
  | listDirEv (path : String) : Event
  | checkMarAlreadyExists (path : String) : Event
  | generateMars (model_name tmp_dir : String) : Event
  | printAvailableModels (names : List String) : Event
  | mvFileEv (src dst : String) : Event
  | rmDirTree (path : String) : Event
deriving DecidableEq, Repr

/-- Mutable state of a run: the filesystem and the trace of events so far. -/
structure RunState where
  fs : FsState
  trace : List Event

/-- The run monad: state passing with an exit-code abort. -/
def M (α : Type) : Type := RunState → RunState × Except Nat α

/-- Monadic return. -/
def M.pure {α : Type} (a : α) : M α := fun s => (s, Except.ok a)

/-- Monadic bind: aborts propagate, keeping the state reached so far. -/
def M.bind {α β : Type} (x : M α) (f : α → M β) : M β := fun s =>
  match x s with
  | (s1, Except.error e) => (s1, Except.error e)
  | (s1, Except.ok a) => f a s1

/-- Record an event. -/
def M.emit (e : Event) : M Unit := fun s =>
  ({ s with trace := s.trace ++ [e] }, Except.ok ())

/-- `sys.exit(1)`. -/
def M.exit1 {α : Type} : M α := fun s => (s, Except.error 1)

/-- Read the filesystem. -/
def M.getFs : M FsState := fun s => (s, Except.ok s.fs)

/-- Mutate the filesystem. -/
def M.modifyFs (g : FsState → FsState) : M Unit := fun s =>
  ({ s with fs := g s.fs }, Except.ok ())

/-! ## External collaborators and request data -/

/-- One entry of `model_config.json`. -/
structure RegistryEntry where
  repo_id : String
  repo_version : String
  handler : String
deriving DecidableEq, Repr

/-- Environment: static configuration plus oracles for the remote-hub client
and the archive generator (out-of-scope collaborators, spec §1/§6). -/
structure Env where
  config_exists : Bool
  config : List (String × RegistryEntry)
  script_dir : String
  list_repo_commits_ok : String → String → Bool
  list_repo_files : String → String → List String
  snapshot_ok : String → String → Bool
  snapshot_effect : String → String → String → FsState → FsState
  generate_mars_effect : String → String → FsState → FsState

/-- `download.py` lines 18-27. -/
structure DownloadDataModel where
  model_name : String
  model_path : String
  download_model : Bool
  mar_output : String
  repo_id : String
  repo_version : String
  handler_path : String
  hf_token : Option String
  debug : Bool
deriving DecidableEq, Repr

/-- Parsed command-line arguments (`download.py` lines 170-188). -/
structure Args where
  model_name : String
  repo_version : String
  no_download : Bool
  model_path : String
  mar_output : String
  handler_path : String
  hf_token : Option String
  debug : Bool
deriving DecidableEq, Repr

/-- Python `models[name]` access guarded by `name in models`. -/
def lookupModel (config : List (String × RegistryEntry)) (name : String) :
    Option RegistryEntry :=
  (config.find? (fun kv => kv.1 == name)).map Prod.snd

/-! ## Embedded source functions -/

/-- Modelled from the spec: `check_if_path_exists` from `utils.system_utils`
(not under `src/`) — aborts the process when the path does not exist
(spec §4.4 step 1, §7 PathError). -/
def check_if_path_exists (p : String) : M Unit :=
  M.bind M.getFs (fun fs => if fs.existsPath p then M.pure () else M.exit1)

/-- Modelled from the spec: `rm_dir` from `utils.shell_utils` (not under
`src/`) — removes a directory tree if present (spec §4.3). -/
def rm_dir (p : String) : M Unit :=
  M.bind (M.emit (Event.rmDirTree p)) (fun _ =>
    M.modifyFs (fun fs => fs.removeTree p))

/-- Modelled from the spec: `create_folder_if_not_exists` from
`utils.system_utils` (not under `src/`). -/
def create_folder_if_not_exists (p : String) : M Unit :=
  M.modifyFs (fun fs =>
    if fs.existsPath p then fs else ⟨fs.entries ++ [(p, FsNode.dir)]⟩)

/-- Modelled from the spec: `mv_file` from `utils.shell_utils` (not under
`src/`) — moves a file, replacing any existing destination. -/
def mv_file (src dst : String) : M Unit :=
  M.bind (M.emit (Event.mvFileEv src dst)) (fun _ =>
    M.modifyFs (fun fs =>
      ⟨(fs.entries.filter (fun e => !(e.1 == src || e.1 == dst))) ++ [(dst, FsNode.file)]⟩))

/-- `download.py` lines 91-114 (`get_repo_id_and_version`).  Reads the
registry, substitutes the default revision when the override is empty,
requires a token for `meta-llama` repositories before any remote call, and
confirms the repo/revision by listing its commits; `sys.exit(1)` raised by
the token check escapes the `except Exception` clause (it is a
`SystemExit`). -/
def get_repo_id_and_version (env : Env) (dl : DownloadDataModel) : M DownloadDataModel :=
  M.bind (if env.config_exists then M.pure () else M.exit1) (fun _ =>
  M.bind (M.emit Event.readConfig) (fun _ =>
  match lookupModel env.config dl.model_name with
  | some entry =>
      let dl1 : DownloadDataModel :=
        { dl with
          repo_id := entry.repo_id
          repo_version := if dl.repo_version == "" then entry.repo_version else dl.repo_version }
      if strStarts ("meta-llama") dl1.repo_id && dl1.hf_token.isNone then
        M.exit1
      else
        M.bind (M.emit (Event.remoteListCommits dl1.repo_id dl1.repo_version dl1.hf_token)) (fun _ =>
          if env.list_repo_commits_ok dl1.repo_id dl1.repo_version then M.pure dl1 else M.exit1)
  | none =>
      M.bind (M.emit (Event.printAvailableModels (env.config.map Prod.fst))) (fun _ =>
        M.exit1)))

/-- `download.py` lines 30-41 (`set_values`): builds the request and resolves
it immediately. -/
def set_values (env : Env) (args : Args) : M DownloadDataModel :=
  get_repo_id_and_version env
    { model_name := args.model_name
      model_path := args.model_path
      download_model := args.no_download
      mar_output := args.mar_output
      repo_id := ""
      repo_version := args.repo_version
      handler_path := args.handler_path
      hf_token := args.hf_token
      debug := args.debug }

/-- `download.py` lines 59-63 (`check_if_mar_exists`). -/
def check_if_mar_exists (dl : DownloadDataModel) : M Unit :=
  let check_path := pathJoin dl.mar_output (dl.model_name ++ "_" ++ dl.repo_version ++ ".mar")
  M.bind (M.emit (Event.checkMarAlreadyExists check_path)) (fun _ =>
  M.bind M.getFs (fun fs =>
    if fs.existsPath check_path then M.exit1 else M.pure ()))

/-- `download.py` lines 66-71 (`check_if_model_files_exist`): local listing
versus the filtered remote listing. -/
def check_if_model_files_exist (env : Env) (dl : DownloadDataModel) : M Bool :=
  M.bind M.getFs (fun fs =>
  M.bind (M.emit (Event.listDirEv dl.model_path)) (fun _ =>
  let extra_files_list := fs.listdir dl.model_path
  M.bind (M.emit (Event.remoteListFiles dl.repo_id dl.repo_version dl.hf_token)) (fun _ =>
  let repo_files :=
    filter_files_by_extension (env.list_repo_files dl.repo_id dl.repo_version)
      FILE_EXTENSIONS_TO_IGNORE
  M.pure (compare_lists extra_files_list repo_files))))

/-- `download.py` lines 74-79 (`create_tmp_model_store`). -/
def create_tmp_model_store (mar_output model_name repo_version : String) : M String :=
  let dir_name := "tmp_" ++ model_name ++ "_" ++ repo_version
  let tmp_dir := pathJoin mar_output dir_name
  M.bind (rm_dir tmp_dir) (fun _ =>
  M.bind (create_folder_if_not_exists tmp_dir) (fun _ =>
    M.pure tmp_dir))

/-- `download.py` lines 82-88 (`move_mar`). -/
def move_mar (dl : DownloadDataModel) (tmp_dir : String) : M Unit :=
  let old_filename := dl.model_name ++ ".mar"
  let new_filename := dl.model_name ++ "_" ++ dl.repo_version ++ ".mar"
  let src := pathJoin tmp_dir old_filename
  let dst := pathJoin dl.mar_output new_filename
  M.bind (check_if_path_exists src) (fun _ => mv_file src dst)

/-- The finalize step of the Staging Manager: `download.py` lines 152-155,
the tail of `create_mar` — relocate the archive, then delete the staging
directory. -/
def finalize (dl : DownloadDataModel) (tmp_dir : String) : M Unit :=
  M.bind (move_mar dl tmp_dir) (fun _ => rm_dir tmp_dir)

/-- `download.py` lines 117-130 (`run_download`): requires an empty target
directory, then invokes `snapshot_download` with the wildcard ignore
patterns; the download's effect on the filesystem is the collaborator's. -/
def run_download (env : Env) (dl : DownloadDataModel) : M DownloadDataModel :=
  M.bind M.getFs (fun fs =>
  if !(fs.folderEmpty dl.model_path) then M.exit1
  else
    M.bind (M.emit (Event.snapshotDownload dl.repo_id dl.repo_version dl.model_path dl.hf_token
        (get_ignore_pattern_list FILE_EXTENSIONS_TO_IGNORE))) (fun _ =>
    if env.snapshot_ok dl.repo_id dl.repo_version then
      M.bind (M.modifyFs (env.snapshot_effect dl.repo_id dl.repo_version dl.model_path)) (fun _ =>
        M.pure dl)
    else M.exit1))

/-- `download.py` lines 133-156 (`create_mar`): reconcile, lazily resolve the
handler from the registry, stage, generate, finalize. -/
def create_mar (env : Env) (dl : DownloadDataModel) : M Unit :=
  M.bind (check_if_model_files_exist env dl) (fun ok =>
  if !ok then M.exit1
  else
    M.bind
      (if dl.handler_path == "" then
        M.bind (if env.config_exists then M.pure () else M.exit1) (fun _ =>
        M.bind (M.emit Event.readConfig) (fun _ =>
          match lookupModel env.config dl.model_name with
          | some entry =>
              M.pure { dl with handler_path := pathJoin env.script_dir entry.handler }
          | none => M.pure dl))
      else M.pure dl) (fun dl1 =>
    M.bind (create_tmp_model_store dl1.mar_output dl1.model_name dl1.repo_version) (fun tmp_dir =>
    M.bind (M.emit (Event.generateMars dl1.model_name tmp_dir)) (fun _ =>
    M.bind (M.modifyFs (env.generate_mars_effect dl1.model_name tmp_dir)) (fun _ =>
    finalize dl1 tmp_dir)))))

/-- `download.py` lines 159-167 (`run_script`): the orchestrator. -/
def run_script (env : Env) (args : Args) : M Unit :=
  M.bind (set_values env args) (fun dl =>
  M.bind (check_if_path_exists dl.model_path) (fun _ =>
  M.bind (check_if_path_exists dl.mar_output) (fun _ =>
  M.bind (check_if_mar_exists dl) (fun _ =>
  M.bind (if dl.download_model then run_download env dl else M.pure dl) (fun dl2 =>
    create_mar env dl2)))))

/-! ## Concrete fixtures for witnesses and counterexamples -/

/-- Environment whose registry has one model, with all remote calls succeeding. -/
def demoEnv : Env :=
  { config_exists := true
    config := [("modelX", { repo_id := "org/modelX", repo_version := "v2", handler := "h.py" })]
    script_dir := "llm"
    list_repo_commits_ok := fun _ _ => true
    list_repo_files := fun _ _ => ["a.json"]
    snapshot_ok := fun _ _ => true
    snapshot_effect := fun _ _ _ fs => fs
    generate_mars_effect := fun _ _ fs => fs }

/-- The registry entry of `demoEnv`. -/
def demoEntry : RegistryEntry := { repo_id := "org/modelX", repo_version := "v2", handler := "h.py" }

/-- A request for `modelX` revision `v2`, download enabled. -/
def demoArgs : Args :=
  { model_name := "modelX", repo_version := "v2", no_download := true
    model_path := "/mp", mar_output := "/out", handler_path := "", hf_token := none, debug := false }

/-- Filesystem in which the output archive `modelX_v2.mar` already exists. -/
def marPresentState : RunState :=
  { fs := ⟨[("/mp", FsNode.dir), ("/out", FsNode.dir), ("/out/modelX_v2.mar", FsNode.file)]⟩
    trace := [] }

/-- Filesystem in which `model_path` is non-empty and no archive exists yet. -/
def staleFilesState : RunState :=
  { fs := ⟨[("/mp", FsNode.dir), ("/mp/stale.txt", FsNode.file), ("/out", FsNode.dir)]⟩
    trace := [] }

/-- An empty filesystem. -/
def emptyState : RunState := { fs := ⟨[]⟩, trace := [] }

/-- Environment whose registry points at a privileged `meta-llama` repository. -/
def llamaEnv : Env :=
  { demoEnv with config :=
      [("llama2", { repo_id := "meta-llama/Llama-2-7b", repo_version := "main", handler := "h.py" })] }

/-- A request for the llama model without an access token. -/
def llamaDl : DownloadDataModel :=
  { model_name := "llama2", model_path := "/mp", download_model := true, mar_output := "/out"
    repo_id := "", repo_version := "", handler_path := "", hf_token := none, debug := false }

/-- A request whose model name is not registered. -/
def unknownDl : DownloadDataModel := { llamaDl with model_name := "nope" }

/-- A request as it looks when `finalize` runs (model `m`, revision `v1`). -/
def stagingDl : DownloadDataModel :=
  { model_name := "m", model_path := "/mp", download_model := false, mar_output := "/out"
    repo_id := "org/m", repo_version := "v1", handler_path := "h", hf_token := none, debug := false }

/-- Staging directory holding the generated archive plus a leftover byproduct. -/
def stagingState : RunState :=
  { fs := ⟨[("/out", FsNode.dir), ("/out/tmp_m_v1", FsNode.dir),
            ("/out/tmp_m_v1/m.mar", FsNode.file), ("/out/tmp_m_v1/extra.txt", FsNode.file)]⟩
    trace := [] }

/-- A fully resolved request, used to exercise `run_download` directly. -/
def dlForDownload : DownloadDataModel :=
  { model_name := "modelX", model_path := "/mp", download_model := true, mar_output := "/out"
    repo_id := "org/modelX", repo_version := "v2", handler_path := "", hf_token := none, debug := false }

/-- Filesystem whose `model_path` directory exists and is empty. -/
def emptyModelPathState : RunState := { fs := ⟨[("/mp", FsNode.dir)]⟩, trace := [] }

/-! ## Helper lemmas -/

/-- An anchored literal alternative matches somewhere in `f` iff the literal
is a suffix of `f` or a suffix of `f` just before a trailing newline. -/
theorem reLitMatchAt_exists_iff (lit f : List Char) :
    (∃ i, i < f.length + 1 ∧ reLitMatchAt lit f i = true) ↔
      (lit <:+ f ∨ (lit ++ [newlineChar]) <:+ f) := by
  constructor
  · rintro ⟨i, hi, hm⟩
    unfold reLitMatchAt reEndAnchor at hm
    rw [Bool.and_eq_true, Bool.or_eq_true] at hm
    obtain ⟨htake, hanchor⟩ := hm
    rw [beq_iff_eq] at htake
    rcases hanchor with hend | hnl
    · rw [beq_iff_eq] at hend
      left
      have hlen : (f.drop i).length = lit.length := by
        rw [List.length_drop]; omega
      have hdrop : f.drop i = lit := by
        rw [← htake, ← hlen, List.take_length]
      exact hdrop ▸ List.drop_suffix i f
    · rw [beq_iff_eq] at hnl
      right
      have hsplit : f.drop i = lit ++ [newlineChar] := by
        conv_lhs => rw [← List.take_append_drop lit.length (f.drop i)]
        rw [htake, List.drop_drop, hnl]
      exact hsplit ▸ List.drop_suffix i f
  · rintro (⟨t, ht⟩ | ⟨t, ht⟩)
    · refine ⟨t.length, ?_, ?_⟩
      · subst ht; simp [List.length_append]; omega
      · unfold reLitMatchAt reEndAnchor
        subst ht
        rw [List.drop_left, List.take_length]
        simp [List.length_append]
    · refine ⟨t.length, ?_, ?_⟩
      · subst ht; simp [List.length_append]; omega
      · unfold reLitMatchAt reEndAnchor
        subst ht
        rw [List.drop_left]
        rw [List.take_left]
        have hdd : (t ++ (lit ++ [newlineChar])).drop (t.length + lit.length) = [newlineChar] := by
          rw [← List.append_assoc]
          have hlen : (t ++ lit).length = t.length + lit.length := List.length_append t lit
          rw [List.drop_left' hlen]
        simp [hdd]

/-- Semantics of the joined pattern for a non-empty extension list: `re.search`
succeeds iff some escaped extension matches as an end-anchored suffix. -/
theorem reSearchSuffixPat_eq_true_iff (lits : List (List Char)) (f : List Char) (h : lits ≠ []) :
    reSearchSuffixPat lits f = true ↔
      ∃ lit ∈ lits, (lit <:+ f ∨ (lit ++ [newlineChar]) <:+ f) := by
  unfold reSearchSuffixPat
  rw [if_neg (by simpa using h)]
  simp only [List.any_eq_true, List.mem_range]
  constructor
  · rintro ⟨i, hi, lit, hlit, hm⟩
    exact ⟨lit, hlit, (reLitMatchAt_exists_iff lit f).mp ⟨i, hi, hm⟩⟩
  · rintro ⟨lit, hlit, hsuf⟩
    obtain ⟨i, hi, hm⟩ := (reLitMatchAt_exists_iff lit f).mpr hsuf
    exact ⟨i, hi, lit, hlit, hm⟩

/-- Membership in the filter output, characterized by suffix matching. -/
theorem mem_filter_files_iff (filenames exts : List String) (F : String)
    (h : exts ≠ []) (hF : F ∈ filenames) :
    F ∈ filter_files_by_extension filenames exts ↔
      ∀ E ∈ exts, ¬(E.data <:+ F.data) ∧ ¬((E.data ++ [newlineChar]) <:+ F.data) := by
  unfold filter_files_by_extension
  rw [List.mem_filter]
  have hne : exts.map String.data ≠ [] := by simpa using h
  simp only [hF, true_and, Bool.not_eq_true']
  rw [← Bool.not_eq_true, reSearchSuffixPat_eq_true_iff _ _ hne]
  simp only [List.mem_map, not_exists, not_or, not_and]
  constructor
  · intro hno E hE
    have := hno E.data
    constructor
    · intro hc; exact (this ⟨E, hE, rfl⟩).1 hc
    · intro hc; exact (this ⟨E, hE, rfl⟩).2 hc
  · rintro hall lit ⟨E, hE, rfl⟩
    exact ⟨(hall E hE).1, (hall E hE).2⟩

/-- Counter equality is multiset equality. -/
theorem compare_lists_eq_true_iff (l1 l2 : List String) :
    compare_lists l1 l2 = true ↔ (l1 : Multiset String) = (l2 : Multiset String) := by
  unfold compare_lists
  rw [Multiset.coe_eq_coe, List.perm_iff_count, List.all_eq_true]
  constructor
  · intro h a
    by_cases ha : a ∈ l1 ++ l2
    · simpa using h a ha
    · rw [List.mem_append, not_or] at ha
      rw [List.count_eq_zero.mpr ha.1, List.count_eq_zero.mpr ha.2]
  · intro h x _
    simpa using h x

/-- A path extended with a separator is never a starting segment of itself. -/
theorem strStarts_append_slash_self (p : String) : strStarts (p ++ "/") p = false := by
  unfold strStarts
  rw [Bool.eq_false_iff]
  intro hcontra
  rw [beq_iff_eq] at hcontra
  have h1 := congrArg List.length hcontra
  rw [List.length_take, String.data_append, List.length_append] at h1
  have h2 : ("/" : String).data.length = 1 := rfl
  rw [h2] at h1
  omega

/-- No path lies strictly under itself. -/
theorem pathUnder_self_false (p : String) : pathUnder p p = false :=
  strStarts_append_slash_self p

/-- Membership after removing a directory tree. -/
theorem mem_removeTree (fs : FsState) (p : String) (e : String × FsNode) :
    e ∈ (fs.removeTree p).entries ↔
      e ∈ fs.entries ∧ e.1 ≠ p ∧ pathUnder p e.1 = false := by
  unfold FsState.removeTree
  simp [List.mem_filter, not_or, Bool.not_eq_true]

/-- Removing a tree removes its root. -/
theorem removeTree_existsPath_self (fs : FsState) (p : String) :
    (fs.removeTree p).existsPath p = false := by
  unfold FsState.existsPath
  rw [Bool.eq_false_iff]
  intro h
  rw [List.any_eq_true] at h
  obtain ⟨e, he, heq⟩ := h
  rw [beq_iff_eq] at heq
  rw [mem_removeTree] at he
  exact he.2.1 heq

/-- Path existence as a membership statement. -/
theorem existsPath_iff (fs : FsState) (p : String) :
    fs.existsPath p = true ↔ ∃ e ∈ fs.entries, e.1 = p := by
  unfold FsState.existsPath
  simp [List.any_eq_true]

/-- Full characterization of one `create_tmp_model_store` call: it removes any
existing tree at the derived name and recreates the directory fresh. -/
theorem create_tmp_model_store_run (mo n v : String) (s : RunState) :
    create_tmp_model_store mo n v s =
      ({ fs := ⟨(s.fs.removeTree (pathJoin mo ("tmp_" ++ n ++ "_" ++ v))).entries ++
                 [(pathJoin mo ("tmp_" ++ n ++ "_" ++ v), FsNode.dir)]⟩,
         trace := s.trace ++ [Event.rmDirTree (pathJoin mo ("tmp_" ++ n ++ "_" ++ v))] },
       Except.ok (pathJoin mo ("tmp_" ++ n ++ "_" ++ v))) := by
  unfold create_tmp_model_store rm_dir create_folder_if_not_exists M.bind M.emit M.modifyFs M.pure
  simp [removeTree_existsPath_self]

/-- Full characterization of a successful `finalize`: the archive is moved and
the staging tree removed. -/
theorem finalize_run_success (dl : DownloadDataModel) (tmp_dir : String) (s : RunState)
    (h : s.fs.existsPath (pathJoin tmp_dir (dl.model_name ++ ".mar")) = true) :
    finalize dl tmp_dir s =
      ({ fs := FsState.removeTree
            ⟨(s.fs.entries.filter (fun e =>
                !(e.1 == pathJoin tmp_dir (dl.model_name ++ ".mar") ||
                  e.1 == pathJoin dl.mar_output (dl.model_name ++ "_" ++ dl.repo_version ++ ".mar")))) ++
              [(pathJoin dl.mar_output (dl.model_name ++ "_" ++ dl.repo_version ++ ".mar"), FsNode.file)]⟩
            tmp_dir,
         trace := s.trace ++
           [Event.mvFileEv (pathJoin tmp_dir (dl.model_name ++ ".mar"))
              (pathJoin dl.mar_output (dl.model_name ++ "_" ++ dl.repo_version ++ ".mar")),
            Event.rmDirTree tmp_dir] },
       Except.ok ()) := by
  unfold finalize move_mar check_if_path_exists mv_file rm_dir
    M.bind M.emit M.pure M.exit1 M.getFs M.modifyFs
  simp [h]

/-! ## Claims -/

/-- C1 (counterexample): with `modelX_v2.mar` already present in the output
directory, the run does abort with exit code 1, but its trace already
contains the resolver's remote commit-listing call — resolution (step 3)
happened before the already-exists check (step 2), contradicting the claimed
ordering. -/
theorem c1_already_exists_after_resolution_cex :
    (run_script demoEnv demoArgs marPresentState).2 = Except.error 1 ∧
    (run_script demoEnv demoArgs marPresentState).1.trace =
      [Event.readConfig,
       Event.remoteListCommits ("org/modelX") ("v2") none,
       Event.checkMarAlreadyExists ("/out/modelX_v2.mar")] :=
  ⟨rfl, by decide⟩

/-- C1 (amended): for every run in which the output directory already
contains `<model_name>_<revision>.mar` and the earlier steps pass, the
orchestrator aborts with exit code 1 at the already-exists check before any
download is attempted (the final trace holds no download event and no later
event); however, model resolution — including its remote commit-listing
call — runs before the already-exists check, during request construction,
not after it. -/
theorem c1_already_exists_abort_amended :
    ∀ (env : Env) (args : Args) (s : RunState) (entry : RegistryEntry) (rv : String),
    env.config_exists = true →
    lookupModel env.config args.model_name = some entry →
    (if args.repo_version = "" then entry.repo_version else args.repo_version) = rv →
    (strStarts ("meta-llama") entry.repo_id && args.hf_token.isNone) = false →
    env.list_repo_commits_ok entry.repo_id rv = true →
    s.fs.existsPath args.model_path = true →
    s.fs.existsPath args.mar_output = true →
    s.fs.existsPath (pathJoin args.mar_output (args.model_name ++ "_" ++ rv ++ ".mar")) = true →
    run_script env args s =
      ({ s with trace := s.trace ++
          [Event.readConfig,
           Event.remoteListCommits entry.repo_id rv args.hf_token,
           Event.checkMarAlreadyExists
             (pathJoin args.mar_output (args.model_name ++ "_" ++ rv ++ ".mar"))] },
       Except.error 1) := by
  intro env args s entry rv h1 h2 hrv hauth hcommits hmp hout hmar
  unfold run_script set_values get_repo_id_and_version check_if_path_exists check_if_mar_exists
    M.bind M.emit M.pure M.exit1 M.getFs
  simp [h1, h2, hrv, hauth, hcommits, hmp, hout, hmar]

/-- C1 (witness): the amended theorem applied to the concrete
already-present-archive scenario. -/
theorem c1_already_exists_abort_amended_witness :
    run_script demoEnv demoArgs marPresentState =
      ({ marPresentState with trace :=
          [Event.readConfig,
           Event.remoteListCommits ("org/modelX") ("v2") none,
           Event.checkMarAlreadyExists ("/out/modelX_v2.mar")] },
       Except.error 1) :=
  c1_already_exists_abort_amended demoEnv demoArgs marPresentState demoEntry ("v2")
    (by decide) (by decide) (by decide) (by decide) (by decide) (by decide) (by decide) (by decide)

/-- C2 (counterexample): `".bin"` occurs in `"x.bin\n"` only as a non-suffix
substring, yet the filter excludes the filename, because Python's `$` also
matches just before a trailing newline.  The claim's non-suffix half is
therefore false as stated. -/
theorem c2_trailing_newline_cex :
    (".bin".data <:+: "x.bin\n".data) ∧ ¬(".bin".data <:+ "x.bin\n".data) ∧
    filter_files_by_extension ["x.bin\n"] [".bin"] = [] :=
  ⟨by decide, by decide, by decide⟩

/-- C2 (amended): the ignore-list entries act as escaped literal suffixes
anchored at the end of the string — or immediately before a newline that
ends the string (Python `$` semantics).  A filename ending exactly in an
entry is excluded; a filename in which no entry occurs as such an anchored
suffix is kept, even if entries occur as interior substrings. -/
theorem c2_suffix_filter_amended :
    ∀ (exts filenames : List String) (E F : String),
    exts ≠ [] → E ∈ exts → F ∈ filenames →
    ((E.data <:+ F.data → F ∉ filter_files_by_extension filenames exts) ∧
     ((∀ G ∈ exts, ¬(G.data <:+ F.data) ∧ ¬((G.data ++ [newlineChar]) <:+ F.data)) →
        F ∈ filter_files_by_extension filenames exts)) := by
  intro exts filenames E F hne hE hF
  constructor
  · intro hsuf hmem
    exact ((mem_filter_files_iff filenames exts F hne hF).mp hmem E hE).1 hsuf
  · intro hall
    exact (mem_filter_files_iff filenames exts F hne hF).mpr hall

/-- C2 (witness): `"a.bin"` (exact suffix) is excluded while `"keep.json"`
(no anchored-suffix occurrence of `".bin"`) is kept. -/
theorem c2_suffix_filter_amended_witness :
    ("a.bin" ∉ filter_files_by_extension ["a.bin", "keep.json"] [".bin"]) ∧
    ("keep.json" ∈ filter_files_by_extension ["a.bin", "keep.json"] [".bin"]) :=
  ⟨(c2_suffix_filter_amended [".bin"] ["a.bin", "keep.json"] (".bin") ("a.bin")
      (by decide) (by decide) (by decide)).1 (by decide),
   (c2_suffix_filter_amended [".bin"] ["a.bin", "keep.json"] (".bin") ("keep.json")
      (by decide) (by decide) (by decide)).2 (by decide)⟩

/-- C3: reconciliation returns true iff the local listing and the filtered
remote listing are equal as multisets — order is irrelevant and duplicate
multiplicities must agree, as shown by the two concrete examples. -/
theorem c3_reconciliation_multiset_equality :
    ∀ (env : Env) (dl : DownloadDataModel) (s : RunState),
    (((check_if_model_files_exist env dl s).2 = Except.ok true) ↔
      ((s.fs.listdir dl.model_path : Multiset String) =
       (filter_files_by_extension (env.list_repo_files dl.repo_id dl.repo_version)
          FILE_EXTENSIONS_TO_IGNORE : Multiset String))) ∧
    compare_lists ["a.json", "b.bin", "a.json"] ["a.json", "a.json", "b.bin"] = true ∧
    compare_lists ["a.json", "b.bin", "a.json"] ["a.json", "b.bin"] = false := by
  intro env dl s
  refine ⟨?_, by decide, by decide⟩
  have hrun : (check_if_model_files_exist env dl s).2 =
      Except.ok (compare_lists (s.fs.listdir dl.model_path)
        (filter_files_by_extension (env.list_repo_files dl.repo_id dl.repo_version)
          FILE_EXTENSIONS_TO_IGNORE)) := rfl
  rw [hrun]
  simp only [Except.ok.injEq]
  exact compare_lists_eq_true_iff _ _

/-- C4: when the resolved repository identifier starts with the privileged
`meta-llama` prefix and no token was supplied, resolution exits with code 1
and the final trace contains no remote call — only the configuration read. -/
theorem c4_privileged_repo_requires_token :
    ∀ (env : Env) (dl : DownloadDataModel) (s : RunState) (entry : RegistryEntry),
    env.config_exists = true →
    lookupModel env.config dl.model_name = some entry →
    strStarts ("meta-llama") entry.repo_id = true →
    dl.hf_token = none →
    get_repo_id_and_version env dl s =
      ({ s with trace := s.trace ++ [Event.readConfig] }, Except.error 1) := by
  intro env dl s entry h1 h2 h3 h4
  unfold get_repo_id_and_version M.bind M.emit M.pure M.exit1
  simp [h1, h2, h3, h4]

/-- C4 (witness): the llama request without a token aborts before any remote
call. -/
theorem c4_privileged_repo_requires_token_witness :
    get_repo_id_and_version llamaEnv llamaDl emptyState =
      ({ emptyState with trace := [Event.readConfig] }, Except.error 1) :=
  c4_privileged_repo_requires_token llamaEnv llamaDl emptyState
    { repo_id := "meta-llama/Llama-2-7b", repo_version := "main", handler := "h.py" }
    (by decide) (by decide) (by decide) (by decide)

/-- C5: an unregistered model name makes resolution exit with code 1, and the
reported available-model list is exactly the registry's key list. -/
theorem c5_unknown_model_reports_registry_keys :
    ∀ (env : Env) (dl : DownloadDataModel) (s : RunState),
    env.config_exists = true →
    dl.model_name ∉ env.config.map Prod.fst →
    get_repo_id_and_version env dl s =
      ({ s with trace := s.trace ++
          [Event.readConfig, Event.printAvailableModels (env.config.map Prod.fst)] },
       Except.error 1) := by
  intro env dl s h1 h2
  have hfind : env.config.find? (fun kv => kv.1 == dl.model_name) = none := by
    rw [List.find?_eq_none]
    intro kv hkv
    simp only [beq_iff_eq]
    intro he
    exact h2 (List.mem_map.mpr ⟨kv, hkv, he⟩)
  have hl : lookupModel env.config dl.model_name = none := by
    unfold lookupModel; rw [hfind]; rfl
  unfold get_repo_id_and_version M.bind M.emit M.pure M.exit1
  simp [h1, hl]

/-- C5 (witness): the unknown name `nope` aborts, reporting exactly the key
list `["modelX"]`. -/
theorem c5_unknown_model_reports_registry_keys_witness :
    get_repo_id_and_version demoEnv unknownDl emptyState =
      ({ emptyState with trace := [Event.readConfig, Event.printAvailableModels ["modelX"]] },
       Except.error 1) :=
  c5_unknown_model_reports_registry_keys demoEnv unknownDl emptyState (by decide) (by decide)

/-- C6: `finalize` fails with exit code 1 when `<model_name>.mar` is absent
from the staging directory; otherwise it succeeds, the renamed archive
`<model_name>_<revision>.mar` exists in the output directory, and no entry of
the resulting filesystem is the staging directory or lies inside it (all
byproducts removed).  The two non-aliasing hypotheses on `dst` exclude path
coincidences the string model admits but a real directory tree cannot. -/
theorem c6_finalize_moves_and_cleans :
    ∀ (dl : DownloadDataModel) (tmp_dir : String) (s : RunState) (src dst : String),
    src = pathJoin tmp_dir (dl.model_name ++ ".mar") →
    dst = pathJoin dl.mar_output (dl.model_name ++ "_" ++ dl.repo_version ++ ".mar") →
    ((s.fs.existsPath src = false → finalize dl tmp_dir s = (s, Except.error 1)) ∧
     (s.fs.existsPath src = true → dst ≠ tmp_dir → pathUnder tmp_dir dst = false →
        (finalize dl tmp_dir s).2 = Except.ok () ∧
        (finalize dl tmp_dir s).1.fs.existsPath dst = true ∧
        ∀ e ∈ (finalize dl tmp_dir s).1.fs.entries,
          e.1 ≠ tmp_dir ∧ pathUnder tmp_dir e.1 = false)) := by
  intro dl tmp_dir s src dst hsrc hdst
  subst hsrc; subst hdst
  constructor
  · intro h
    unfold finalize move_mar check_if_path_exists mv_file rm_dir
      M.bind M.emit M.pure M.exit1 M.getFs M.modifyFs
    simp [h]
  · intro h hne hunder
    rw [finalize_run_success dl tmp_dir s h]
    refine ⟨rfl, ?_, ?_⟩
    · rw [existsPath_iff]
      refine ⟨(pathJoin dl.mar_output (dl.model_name ++ "_" ++ dl.repo_version ++ ".mar"),
               FsNode.file), ?_, rfl⟩
      rw [mem_removeTree]
      refine ⟨by simp, hne, hunder⟩
    · intro e he
      have := (mem_removeTree _ _ _).mp he
      exact ⟨this.2.1, this.2.2⟩

/-- C6 (witness): finalizing a staging directory that holds `m.mar` plus a
byproduct succeeds and produces `/out/m_v1.mar`. -/
theorem c6_finalize_moves_and_cleans_witness :
    (finalize stagingDl ("/out/tmp_m_v1") stagingState).2 = Except.ok () ∧
    (finalize stagingDl ("/out/tmp_m_v1") stagingState).1.fs.existsPath ("/out/m_v1.mar") = true := by
  have h := (c6_finalize_moves_and_cleans stagingDl ("/out/tmp_m_v1") stagingState
      ("/out/tmp_m_v1/m.mar") ("/out/m_v1.mar") (by decide) (by decide)).2
      (by decide) (by decide) (by decide)
  exact ⟨h.1, h.2.1⟩

/-- C7: staging begin is idempotent — both calls return the same
deterministic path derived from model name and revision; after the second
call the directory exists and nothing lies inside it, for every interleaved
set of extra filesystem entries (e.g. files left behind by the first call). -/
theorem c7_staging_begin_idempotent :
    ∀ (mo n v : String) (s : RunState) (extra : List (String × FsNode)),
    (create_tmp_model_store mo n v s).2 = Except.ok (pathJoin mo ("tmp_" ++ n ++ "_" ++ v)) ∧
    (create_tmp_model_store mo n v
        { fs := ⟨(create_tmp_model_store mo n v s).1.fs.entries ++ extra⟩,
          trace := (create_tmp_model_store mo n v s).1.trace }).2 =
      Except.ok (pathJoin mo ("tmp_" ++ n ++ "_" ++ v)) ∧
    (create_tmp_model_store mo n v
        { fs := ⟨(create_tmp_model_store mo n v s).1.fs.entries ++ extra⟩,
          trace := (create_tmp_model_store mo n v s).1.trace }).1.fs.existsPath
      (pathJoin mo ("tmp_" ++ n ++ "_" ++ v)) = true ∧
    ∀ e ∈ (create_tmp_model_store mo n v
        { fs := ⟨(create_tmp_model_store mo n v s).1.fs.entries ++ extra⟩,
          trace := (create_tmp_model_store mo n v s).1.trace }).1.fs.entries,
      pathUnder (pathJoin mo ("tmp_" ++ n ++ "_" ++ v)) e.1 = false := by
  intro mo n v s extra
  rw [create_tmp_model_store_run]
  refine ⟨rfl, ?_, ?_, ?_⟩
  · rw [create_tmp_model_store_run]
  · rw [create_tmp_model_store_run, existsPath_iff]
    exact ⟨(pathJoin mo ("tmp_" ++ n ++ "_" ++ v), FsNode.dir), by simp, rfl⟩
  · rw [create_tmp_model_store_run]
    intro e he
    rcases List.mem_append.mp he with hmem | hmem
    · exact ((mem_removeTree _ _ _).mp hmem).2.2
    · have : e = (pathJoin mo ("tmp_" ++ n ++ "_" ++ v), FsNode.dir) := by simpa using hmem
      rw [this]
      exact pathUnder_self_false _

/-- C8: with download enabled and all earlier checks passing, a non-empty
`model_path` makes the workflow exit with code 1 and the final trace holds no
download event; `run_download` itself aborts without any event when the
directory is non-empty, and emits the snapshot-download event exactly when it
is empty. -/
theorem c8_download_requires_empty_dir :
    ∀ (env : Env) (args : Args) (s : RunState) (entry : RegistryEntry) (rv : String),
    env.config_exists = true →
    lookupModel env.config args.model_name = some entry →
    (if args.repo_version = "" then entry.repo_version else args.repo_version) = rv →
    (strStarts ("meta-llama") entry.repo_id && args.hf_token.isNone) = false →
    env.list_repo_commits_ok entry.repo_id rv = true →
    s.fs.existsPath args.model_path = true →
    s.fs.existsPath args.mar_output = true →
    s.fs.existsPath (pathJoin args.mar_output (args.model_name ++ "_" ++ rv ++ ".mar")) = false →
    args.no_download = true →
    ((s.fs.folderEmpty args.model_path = false →
        run_script env args s =
          ({ s with trace := s.trace ++
              [Event.readConfig,
               Event.remoteListCommits entry.repo_id rv args.hf_token,
               Event.checkMarAlreadyExists
                 (pathJoin args.mar_output (args.model_name ++ "_" ++ rv ++ ".mar"))] },
           Except.error 1)) ∧
     (∀ (dl : DownloadDataModel) (s' : RunState),
        s'.fs.folderEmpty dl.model_path = false →
        run_download env dl s' = (s', Except.error 1)) ∧
     (∀ (dl : DownloadDataModel) (s' : RunState),
        s'.fs.folderEmpty dl.model_path = true →
        (run_download env dl s').1.trace = s'.trace ++
          [Event.snapshotDownload dl.repo_id dl.repo_version dl.model_path dl.hf_token
            (get_ignore_pattern_list FILE_EXTENSIONS_TO_IGNORE)])) := by
  intro env args s entry rv h1 h2 hrv hauth hcommits hmp hout hmar hdl
  refine ⟨?_, ?_, ?_⟩
  · intro hempty
    unfold run_script set_values get_repo_id_and_version check_if_path_exists check_if_mar_exists
      run_download M.bind M.emit M.pure M.exit1 M.getFs
    simp [h1, h2, hrv, hauth, hcommits, hmp, hout, hmar, hdl, hempty]
  · intro dl s' h
    unfold run_download M.bind M.emit M.pure M.exit1 M.getFs
    simp [h]
  · intro dl s' h
    unfold run_download M.bind M.emit M.pure M.exit1 M.getFs M.modifyFs
    by_cases hok : env.snapshot_ok dl.repo_id dl.repo_version
    · simp [h, hok]
    · simp [h, hok]

/-- C8 (witness): a stale file in `/mp` aborts the whole run before any
download event; with `/mp` empty, `run_download` emits exactly the
snapshot-download event with the wildcard ignore patterns. -/
theorem c8_download_requires_empty_dir_witness :
    run_script demoEnv demoArgs staleFilesState =
      ({ staleFilesState with trace :=
          [Event.readConfig, Event.remoteListCommits ("org/modelX") ("v2") none,
           Event.checkMarAlreadyExists ("/out/modelX_v2.mar")] }, Except.error 1) ∧
    (run_download demoEnv dlForDownload emptyModelPathState).1.trace =
      [Event.snapshotDownload ("org/modelX") ("v2") ("/mp") none
        ["*.safetensors", "*.safetensors.index.json"]] := by
  have h := c8_download_requires_empty_dir demoEnv demoArgs staleFilesState demoEntry ("v2")
    (by decide) (by decide) (by decide) (by decide) (by decide) (by decide) (by decide)
    (by decide) (by decide)
  exact ⟨h.1 (by decide), h.2.2 dlForDownload emptyModelPathState (by decide)⟩

/-- C9: the reconciliation check mutates nothing — the filesystem after
`check_if_model_files_exist` equals the filesystem before it, for every
environment, request and state. -/
theorem c9_reconciliation_no_fs_mutation :
    ∀ (env : Env) (dl : DownloadDataModel) (s : RunState),
    ((check_if_model_files_exist env dl s).1).fs = s.fs := by
  intro env dl s
  rfl

/-- C10: with an empty ignore-list the joined regex degenerates to the empty
pattern, which matches every string, so the filter excludes every filename
and returns the empty list. -/
theorem c10_empty_ignore_list_excludes_all :
    ∀ (filenames : List String), filter_files_by_extension filenames [] = [] := by
  intro filenames
  unfold filter_files_by_extension reSearchSuffixPat
  simp
